import Mathlib

/-!
Verification development for `updated_scrape.py`: a shallow embedding of the
crawl-and-download core (URL canonicalization, domain scoping, link
classification, BFS frontier, download pipeline, metadata store), together
with theorems settling the specification claims.

Machine model conventions:
* Python strings are Lean `String` (a list of characters); the Python string
  primitives used by the source (`lower`, `endswith`, `startswith`, `in`,
  slicing) are given explicit char-list definitions below.
* Python `urllib.parse.urlparse` / `urlunparse` are modelled after CPython's
  algorithm (scheme split, `//netloc` split, fragment split, query split,
  params split, and the "Invalid IPv6 URL" `ValueError` for unbalanced
  brackets in the netloc).  The `ValueError` is an `Except.error`; code that
  lets it propagate is `Except`-valued.  CPython's control-character
  stripping preprocessing (version dependent) is omitted; no input used in
  this development contains control characters.
* Python `set`s are Lean lists with membership-guarded insertion, preserving
  first-insertion order; `dict`s are association lists with unique keys.
-/

/-- Python `s.lower()` (the source only ever lowercases ASCII URLs). -/
def pyLower (s : String) : String := ⟨s.data.map Char.toLower⟩

/-- Python `s.endswith(suffix)`. -/
def pyEndsWith (s suffix : String) : Bool := suffix.data.isSuffixOf s.data

/-- Python `s.startswith(p)`. -/
def pyStartsWith (s p : String) : Bool := p.data.isPrefixOf s.data

/-- Python `s[:-1]` for a non-empty string: drop the last character. -/
def dropLastStr (s : String) : String := ⟨s.data.dropLast⟩

/-- Python `os.path.basename` (posix): the part after the last `'/'`. -/
def basename (p : String) : String := ⟨(p.data.reverse.takeWhile (fun c => c ≠ '/')).reverse⟩

/-- Characters CPython's `urlsplit` accepts inside a URL scheme. -/
def scheme_chars : List Char :=
  "abcdefghijklmnopqrstuvwxyzABCDEFGHIJKLMNOPQRSTUVWXYZ0123456789+-.".data

/-- Split a char list at the first occurrence of `c` (the occurrence is
dropped), returning `none` when `c` does not occur: Python `s.split(c, 1)`
and `s.find(c)` combined. -/
def break_at_first (c : Char) : List Char → Option (List Char × List Char)
  | [] => none
  | x :: xs =>
    if x = c then some ([], xs)
    else
      match break_at_first c xs with
      | none => none
      | some (pre, post) => some (x :: pre, post)

/-- CPython `urlsplit` scheme extraction: the part before the first `':'` is
a scheme when it is non-empty, starts with an ASCII letter, and consists of
scheme characters; the scheme is lowercased. -/
def split_scheme (l : List Char) : String × List Char :=
  match break_at_first ':' l with
  | none => ("", l)
  | some ([], _) => ("", l)
  | some (c :: pre, post) =>
    if c.isAlpha ∧ (c :: pre).all (fun ch => scheme_chars.contains ch) then
      (⟨(c :: pre).map Char.toLower⟩, post)
    else ("", l)

/-- CPython `_splitnetloc`: the netloc runs until the next `'/'`, `'?'` or
`'#'`. -/
def split_netloc : List Char → List Char × List Char
  | [] => ([], [])
  | c :: cs =>
    if c = '/' ∨ c = '?' ∨ c = '#' then ([], c :: cs)
    else
      let (n, r) := split_netloc cs
      (c :: n, r)

/-- Python `s.find(c, start)`: index of the first occurrence of `c` at or
after `start`. -/
def find_from (c : Char) (l : List Char) (start : Nat) : Option Nat :=
  match (l.drop start).findIdx? (fun x => x = c) with
  | none => none
  | some k => some (start + k)

/-- Python `s.rfind(c)`: index of the last occurrence of `c`. -/
def rfind_idx (c : Char) (l : List Char) : Option Nat :=
  match l.reverse.findIdx? (fun x => x = c) with
  | none => none
  | some k => some (l.length - 1 - k)

/-- CPython `_splitparams` (only called when `';'` occurs in the path):
split the path at the first `';'` after the last `'/'` (or at the first
`';'` when there is no `'/'`). -/
def split_params (l : List Char) : List Char × List Char :=
  if l.contains '/' then
    match rfind_idx '/' l with
    | none => (l, [])
    | some j =>
      match find_from ';' l j with
      | none => (l, [])
      | some i => (l.take i, l.drop (i + 1))
  else
    match break_at_first ';' l with
    | none => (l, [])
    | some (a, b) => (a, b)

/-- CPython `uses_params`: schemes whose paths carry `;params`. -/
def uses_params : List String :=
  ["", "ftp", "hdl", "prospero", "http", "imap", "https", "shttp", "rtsp",
   "rtspu", "sip", "sips", "mms", "sftp", "tel"]

/-- The six components of CPython's `ParseResult`. -/
structure ParseResult where
  scheme : String
  netloc : String
  path : String
  params : String
  query : String
  fragment : String
deriving DecidableEq

/-- CPython `urllib.parse.urlparse`: scheme, `//netloc` (with the
"Invalid IPv6 URL" `ValueError` when the netloc has unbalanced square
brackets), fragment, query, then params.  The `ValueError` is modelled as
`Except.error`. -/
def urlparse (url : String) : Except String ParseResult :=
  let (scheme, rest) := split_scheme url.data
  let nr : List Char × List Char :=
    match rest with
    | '/' :: '/' :: tl => split_netloc tl
    | _ => ([], rest)
  let netloc := nr.1
  if (netloc.contains '[' && !netloc.contains ']')
      || (netloc.contains ']' && !netloc.contains '[') then
    .error ("Invalid IPv6 URL")
  else
    let fr : List Char × List Char :=
      match break_at_first '#' nr.2 with
      | none => (nr.2, [])
      | some (a, b) => (a, b)
    let qr : List Char × List Char :=
      match break_at_first '?' fr.1 with
      | none => (fr.1, [])
      | some (a, b) => (a, b)
    let pp : List Char × List Char :=
      if scheme ∈ uses_params ∧ qr.1.contains ';' then split_params qr.1
      else (qr.1, [])
    .ok ⟨scheme, ⟨netloc⟩, ⟨pp.1⟩, ⟨pp.2⟩, ⟨qr.2⟩, ⟨fr.2⟩⟩

/-- CPython `urlunsplit`. -/
def urlunsplit (scheme netloc url query fragment : String) : String :=
  let url :=
    if netloc ≠ "" ∨ (url.data.take 2 = ['/', '/']) then
      "//" ++ netloc ++ (if url ≠ "" ∧ ¬ pyStartsWith url "/" then "/" ++ url else url)
    else url
  let url := if scheme ≠ "" then scheme ++ ":" ++ url else url
  let url := if query ≠ "" then url ++ "?" ++ query else url
  if fragment ≠ "" then url ++ "#" ++ fragment else url

/-- CPython `urlunparse`: re-attach `;params` to the path, then unsplit. -/
def urlunparse (p : ParseResult) : String :=
  urlunsplit p.scheme p.netloc
    (if p.params ≠ "" then p.path ++ ";" ++ p.params else p.path) p.query p.fragment

example : urlparse ("https://a.com/x//") =
    .ok ⟨"https", "a.com", "/x//", "", "", ""⟩ := rfl

example : urlparse ("notaurl") = .ok ⟨"", "", "notaurl", "", "", ""⟩ := rfl

example : urlparse ("http://[::1") = .error ("Invalid IPv6 URL") := rfl

example : urlparse ("HTTP://H/a;b/?q=1#frag") =
    .ok ⟨"http", "H", "/a;b/", "", "q=1", "frag"⟩ := rfl

example : urlparse ("http://h/x;y;z") = .ok ⟨"http", "h", "/x", "y;z", "", ""⟩ := rfl

example : urlunparse ⟨"https", "a.com", "/x/", "", "", ""⟩ = "https://a.com/x/" := rfl

/-! ## Source utilities (`updated_scrape.py` lines 63-99) -/

/-- `is_valid_file_extension(url, extensions_tuple)` (line 63-65): does the
lowercased URL end in one of the allow-listed extensions?  (The source's
`lru_cache` only memoizes; it does not change the value.) -/
def is_valid_file_extension (url : String) (extensions : List String) : Bool :=
  extensions.any (fun ext => pyEndsWith (pyLower url) ext)

/-- `is_same_domain(base_url, url)` (lines 67-72): compare the netlocs of
the two URLs; equal, or one is a dot-suffix of the other.  A `ValueError`
raised by `urlparse` propagates (the source has no handler here). -/
def is_same_domain (base_url url : String) : Except String Bool :=
  match urlparse base_url with
  | .error e => .error e
  | .ok b =>
    match urlparse url with
    | .error e => .error e
    | .ok u =>
      .ok ((b.netloc == u.netloc)
        || pyEndsWith u.netloc ("." ++ b.netloc)
        || pyEndsWith b.netloc ("." ++ u.netloc))

/-- The component-level mutation performed by `clean_url` between `urlparse`
and `urlunparse` (lines 76-81): blank the fragment, then drop one trailing
`'/'` from the path when the path is longer than one character. -/
def clean_parsed (p : ParseResult) : ParseResult :=
  let cleaned : ParseResult := { p with fragment := "" }
  if pyEndsWith cleaned.path "/" = true ∧ cleaned.path.length > 1 then
    { cleaned with path := dropLastStr cleaned.path }
  else cleaned

/-- `clean_url(url)` (lines 74-82): parse, blank the fragment, strip one
trailing slash from the path, unparse.  (The source's `lru_cache` only
memoizes.) -/
def clean_url (url : String) : Except String String :=
  match urlparse url with
  | .error e => .error e
  | .ok p => .ok (urlunparse (clean_parsed p))

/-- `is_excluded_file(url)` (lines 84-92): lowercased URL ends in one of the
fixed noise extensions. -/
def is_excluded_file (url : String) : Bool :=
  let excluded_extensions : List String :=
    [".png", ".gif", ".jpg", ".jpeg", ".bmp", ".webp", ".svg", ".ico", ".tiff",
     ".zip", ".tar", ".gz", ".rar", ".7z", ".exe", ".dmg", ".pkg", ".deb", ".rpm",
     ".py", ".java", ".js", ".c", ".cpp", ".h", ".cs", ".php", ".rb", ".go", ".rs",
     ".md", ".db", ".sqlite", ".so", ".dll"]
  excluded_extensions.any (fun ext => pyEndsWith (pyLower url) ext)

/-- `get_extension_from_url(url)` (lines 94-99): first matching common
extension, defaulting to `.html`. -/
def get_extension_from_url (url : String) : String :=
  let common_extensions : List String := [".pdf", ".docx", ".xlsx", ".csv", ".txt", ".pptx"]
  match common_extensions.find? (fun ext => pyEndsWith (pyLower url) ext) with
  | some ext => ext
  | none => ".html"

example : clean_url ("https://a.com/x//") = .ok ("https://a.com/x/") := rfl
example : clean_url ("https://a.com/x/") = .ok ("https://a.com/x") := rfl
example : clean_url ("https://a.com/x#frag") = .ok ("https://a.com/x") := rfl
example : clean_url ("https://a.com/") = .ok ("https://a.com/") := rfl
example : is_same_domain ("https://example.com") ("https://docs.example.com/p") = .ok true := rfl
example : is_same_domain ("https://example.com") ("https://other.org/p") = .ok false := rfl

/-! ## Link classification and page scraping (lines 102-135)

The page renderer (Selenium driver: `driver.get`, the `WebDriverWait`, and
`find_elements` with per-link `get_attribute("href")` plus
`urllib.parse.urljoin(url, href)`, lines 106-115) is the spec's external
"Page Renderer" capability.  It is modelled as an oracle
`render : String → Option (List String)` returning the list of non-empty
absolute hyperlink targets of a page, or `none` when rendering fails with a
timeout or navigation error (the `except` arms of lines 131-134). -/

/-- The classification outcomes of the spec's Link Classifier. -/
inductive LinkClass
  | File
  | Page
  | Ignored
deriving DecidableEq

/-- The per-link decision chain of `scrape_page_for_links_and_files`
(lines 117, 123, 126, 128): an excluded, non-allow-listed URL is `Ignored`
(the `continue` at line 118); an allow-listed URL is a `File`; a URL that
string-prefixes the base URL is a `Page`; anything else is `Ignored` (the
implicit final else). -/
def classify (extensions : List String) (base_url url : String) : LinkClass :=
  if is_excluded_file url = true ∧ is_valid_file_extension url extensions = false then
    .Ignored
  else if is_valid_file_extension url extensions = true then .File
  else if pyStartsWith url base_url = true then .Page
  else .Ignored

/-- Python `set.add`: append when not already present. -/
def insertUniq (l : List String) (x : String) : List String :=
  if x ∈ l then l else l ++ [x]

/-- One iteration of the link loop of `scrape_page_for_links_and_files`
(lines 110-130) for one absolute link target, acting on the accumulated
`(file_links, page_links)` pair.  The gates run in source order — the
excluded-`continue` (117), the already-handled check (119), the domain
check (121), then add as file (123-125) or page (126-128) — except that the
two `Ignored` outcomes of `classify` (line 118's `continue` and line 128's
implicit else) are decided up front: every branch in between only skips, so
an `Ignored` link leaves the accumulator unchanged in either order.  A
per-link exception (a `ValueError` from `clean_url` or `is_same_domain`) is
caught by the inner `try` (129-130) and skips the link. -/
def process_link (base_url : String) (extensions : List String)
    (old_visited old_files : List String)
    (acc : List String × List String) (absolute_url : String) :
    List String × List String :=
  match clean_url absolute_url with
  | .error _ => acc
  | .ok cleaned =>
    match classify extensions base_url cleaned with
    | .Ignored => acc
    | cls =>
      if cleaned ∈ old_visited ∨ cleaned ∈ old_files then acc
      else
        match is_same_domain base_url cleaned with
        | .error _ => acc
        | .ok false => acc
        | .ok true =>
          match cls with
          | .File => (insertUniq acc.1 cleaned, acc.2)
          | .Page => (acc.1, insertUniq acc.2 cleaned)
          | .Ignored => acc

/-- `scrape_page_for_links_and_files(url, base_url, extensions,
old_visited_pages, old_file_links, driver)` (lines 102-135): render the
page and fold the link loop over the returned targets; a render failure
(timeout or navigation error) yields the empty sets built so far, i.e.
`([], [])`. -/
def scrape_page_for_links_and_files (render : String → Option (List String))
    (url base_url : String) (extensions : List String)
    (old_visited old_files : List String) : List String × List String :=
  match render url with
  | none => ([], [])
  | some hrefs =>
    hrefs.foldl (process_link base_url extensions old_visited old_files) ([], [])

example : classify [".pdf"] ("https://ex.com") ("https://other.org/d.pdf") = .File := rfl
example : classify [".pdf"] ("https://ex.com") ("https://ex.com/i.png") = .Ignored := rfl
example : classify [".pdf"] ("https://ex.com") ("https://ex.com/about") = .Page := rfl

/-! ## BFS crawl (lines 137-164)

The queue entries in the source are pairs `(url, 0)` whose second component
is a constant never read; the queue is modelled as a list of URLs.  The
page and file quotas are Python ints, modelled as `Int`. -/

/-- The `(file_links, pages_scraped)` output of `bfs_crawl` (line 164),
together with the final `visited_pages` set. -/
structure CrawlResult where
  file_links : List String
  pages_scraped : Nat
  visited : List String
deriving DecidableEq

/-- The enqueue loop of `bfs_crawl` (lines 156-160): clean each discovered
page link and, when it is not yet visited and not an excluded file, append
it to the queue and mark it visited.  A `ValueError` from `clean_url`
propagates out of `bfs_crawl` (no handler in the loop). -/
def enqueue_links (page_links : List String) (queue visited : List String) :
    Except String (List String × List String) :=
  match page_links with
  | [] => .ok (queue, visited)
  | pl :: tl =>
    match clean_url pl with
    | .error e => .error e
    | .ok cleaned_link =>
      if cleaned_link ∉ visited ∧ is_excluded_file cleaned_link = false then
        enqueue_links tl (queue ++ [cleaned_link]) (visited ++ [cleaned_link])
      else enqueue_links tl queue visited

/-- The `while` loop of `bfs_crawl` (lines 146-161): while the queue is
non-empty, fewer than `max_pages` pages have been scraped and fewer than
`max_files` files collected — pop the head; skip it when it is an excluded
file; otherwise scrape it, merge the new file links, stop (without counting
the page or enqueueing) when the file quota is now met, else enqueue the
new page links and count the page. -/
def bfs_loop (render : String → Option (List String)) (base_url : String)
    (extensions : List String) (max_pages max_files : Int)
    (queue visited file_links : List String) (pages_scraped : Nat) :
    Except String CrawlResult :=
  match queue with
  | [] => .ok ⟨file_links, pages_scraped, visited⟩
  | current_url :: rest =>
    if _h : (pages_scraped : Int) < max_pages ∧ (file_links.length : Int) < max_files then
      if is_excluded_file current_url = true then
        bfs_loop render base_url extensions max_pages max_files
          rest visited file_links pages_scraped
      else
        let r := scrape_page_for_links_and_files render current_url base_url
          extensions visited file_links
        let file_links' := r.1.foldl insertUniq file_links
        if (file_links'.length : Int) ≥ max_files then
          .ok ⟨file_links', pages_scraped, visited⟩
        else
          match enqueue_links r.2 rest visited with
          | .error e => .error e
          | .ok qv =>
            bfs_loop render base_url extensions max_pages max_files
              qv.1 qv.2 file_links' (pages_scraped + 1)
    else .ok ⟨file_links, pages_scraped, visited⟩
termination_by ((max_pages - (pages_scraped : Int)).toNat, queue.length)
decreasing_by
  · apply Prod.Lex.right
    simp
  · apply Prod.Lex.left
    omega

/-- `bfs_crawl(start_url, extensions, max_pages, max_files, driver)`
(lines 137-164): compute the base URL from the start URL's scheme and
netloc, seed the queue with the raw start URL and the visited set with its
cleaned form, and run the loop. -/
def bfs_crawl (render : String → Option (List String)) (start_url : String)
    (extensions : List String) (max_pages max_files : Int) :
    Except String CrawlResult :=
  match urlparse start_url with
  | .error e => .error e
  | .ok p =>
    let base_url := p.scheme ++ "://" ++ p.netloc
    match clean_url start_url with
    | .error e => .error e
    | .ok c =>
      bfs_loop render base_url extensions max_pages max_files
        [start_url] [c] [] 0

/-! ## Metadata store (lines 24-60)

`documents_metadata.json` is a JSON object mapping filename keys to
`{url, update_history}` records; it is modelled as an association list in
insertion order.  Success or failure of the network fetch plus the file
write (lines 38-43) is an oracle `fetch : String → Bool`; when it reports
`false` the `except` arm (lines 58-60) runs before any metadata access. -/

/-- One persisted record: `{"url": ..., "update_history": [...]}`. -/
structure MetaRecord where
  url : String
  update_history : List String
deriving DecidableEq

/-- The metadata store: filename key to record, insertion-ordered. -/
abbrev Metadata := List (String × MetaRecord)

/-- Python `metadata[file_key]["update_history"].append(now)` (line 55):
append the timestamp to the history of the entry carrying the key (a
Python dict has at most one). -/
def update_history_at : Metadata → String → String → Metadata
  | [], _, _ => []
  | (k, r) :: tl, file_key, now =>
    if k = file_key then (k, ⟨r.url, r.update_history ++ [now]⟩) :: tl
    else (k, r) :: update_history_at tl file_key now

/-- The upsert performed by `save_file_with_metadata` (lines 46-56) between
`load_metadata()` and `save_metadata(...)`: create the record with a
singleton history when the key is absent (`file_key not in metadata`), else
append the timestamp to the existing record's history (the stored `url`
field is kept). -/
def metadata_upsert (metadata : Metadata) (url file_key now : String) : Metadata :=
  if (metadata.lookup file_key).isSome then
    update_history_at metadata file_key now
  else metadata ++ [(file_key, ⟨url, [now]⟩)]

/-- `save_file_with_metadata(url, save_path)` (lines 36-60) acting on a
metadata state, with `now` the `datetime.now().isoformat()` timestamp:
on fetch/write success, upsert under the basename of the save path and
return `True`; on any exception return `False` with the metadata
untouched. -/
def save_file_with_metadata (fetch : String → Bool) (now : String)
    (metadata : Metadata) (url save_path : String) : Bool × Metadata :=
  if fetch url then
    (true, metadata_upsert metadata url (basename save_path) now)
  else (false, metadata)

/-! ## Download pipeline (lines 166-193) -/

/-- The observable outcome of `download_files`: `ret` is the Python return
value (the function body has no `return <value>` statement, so every path
returns `None`); `successful_downloads` is the count printed at line 192;
`attempted` is the list of `(url, save_path)` submissions made to the
worker pool in iteration order. -/
structure DownloadResult where
  ret : Option Nat
  successful_downloads : Nat
  attempted : List (String × String)
deriving DecidableEq

/-- The filename derivation of lines 179-181: the basename of the URL path
when it is non-empty and contains a `'.'`, else
`document_<successful_downloads + 1><inferred extension>`.  A `ValueError`
from `urlparse` propagates. -/
def derive_filename (url : String) (successful_downloads : Nat) :
    Except String String :=
  match urlparse url with
  | .error e => .error e
  | .ok p =>
    let filename := basename p.path
    if filename = "" ∨ filename.data.contains '.' = false then
      .ok ("document_" ++ toString (successful_downloads + 1) ++ get_extension_from_url url)
    else .ok filename

/-- The submission loop of `download_files` (lines 176-185): walk the file
links, stopping as soon as `count >= max_files`, deriving each save path.
`successful_downloads` is still `0` for every submission, because it is
only incremented in the completion loop (lines 186-189), which runs after
all submissions. -/
def submit_loop (file_links : List String) (count : Nat) (max_files : Int)
    (successful_downloads : Nat) : Except String (List (String × String)) :=
  match file_links with
  | [] => .ok []
  | url :: rest =>
    if (count : Int) ≥ max_files then .ok []
    else
      match derive_filename url successful_downloads with
      | .error e => .error e
      | .ok filename =>
        match submit_loop rest (count + 1) max_files successful_downloads with
        | .error e => .error e
        | .ok tail => .ok ((url, "documents/" ++ filename) :: tail)

/-- `download_files(file_links, max_files)` (lines 166-193): return `None`
immediately when there are no file links; otherwise submit up to
`max_files` downloads and count the successes in the `as_completed` loop
(the count does not depend on completion order; `future.result()` never
raises because `save_file_with_metadata` catches every exception, so the
`except` arm at lines 190-191 is dead).  The function always returns
`None`. -/
def download_files (fetch : String → Bool) (file_links : List String)
    (max_files : Int) : Except String DownloadResult :=
  match file_links with
  | [] => .ok ⟨none, 0, []⟩
  | _ :: _ =>
    match submit_loop file_links 0 max_files 0 with
    | .error e => .error e
    | .ok attempted =>
      .ok ⟨none, attempted.countP (fun t => fetch t.1), attempted⟩

/-- Consistency of the two fetch-success views: the boolean returned by
`save_file_with_metadata` is exactly the fetch oracle's verdict on the
URL. -/
theorem save_file_success_eq_fetch (fetch : String → Bool) (now : String)
    (metadata : Metadata) (url save_path : String) :
    (save_file_with_metadata fetch now metadata url save_path).1 = fetch url := by
  unfold save_file_with_metadata
  by_cases h : fetch url <;> simp [h]

/-! ## Concurrent metadata upserts (lines 46-56 under the thread pool of
line 174)

`download_files` runs `save_file_with_metadata` on up to ten concurrent
workers.  Each worker's metadata access is the three-step sequence
`load_metadata()` → mutate → `save_metadata(...)` with no lock around it.
The interleaving of two workers is modelled explicitly: a shared store, a
per-worker loaded snapshot, and a schedule of load/store events. -/

/-- One worker's upsert job: the URL it downloaded, the save path it wrote,
and its timestamp. -/
structure UpsertTask where
  url : String
  save_path : String
  now : String

/-- Load/store events of the two workers A and B. -/
inductive UpsertEv
  | loadA
  | storeA
  | loadB
  | storeB
deriving DecidableEq

/-- Shared store plus the two workers' loaded snapshots. -/
structure ConcState where
  store : Metadata
  a : Option Metadata
  b : Option Metadata

/-- One event: a load copies the shared store into the worker's snapshot
(`load_metadata`); a store persists the worker's mutation of its own
snapshot (`metadata[...] = ...` followed by `save_metadata`).  A store
before a load does nothing (no such schedule is used). -/
def conc_step (ta tb : UpsertTask) (s : ConcState) (e : UpsertEv) : ConcState :=
  match e with
  | .loadA => { s with a := some s.store }
  | .storeA =>
    match s.a with
    | some m => { s with store := metadata_upsert m ta.url (basename ta.save_path) ta.now }
    | none => s
  | .loadB => { s with b := some s.store }
  | .storeB =>
    match s.b with
    | some m => { s with store := metadata_upsert m tb.url (basename tb.save_path) tb.now }
    | none => s

/-- Run a schedule of events from an initial shared store. -/
def run_upserts (ta tb : UpsertTask) (events : List UpsertEv) (m0 : Metadata) :
    ConcState :=
  events.foldl (conc_step ta tb) ⟨m0, none, none⟩

/-! ## Helper lemmas -/

theorem isPrefixOf_eq_true_iff {l1 l2 : List Char} :
    l1.isPrefixOf l2 = true ↔ l1 <+: l2 := by
  induction l1 generalizing l2 with
  | nil => simp [List.isPrefixOf]
  | cons a t ih =>
    cases l2 with
    | nil => simp [List.isPrefixOf]
    | cons b t2 => simp [List.isPrefixOf, ih, List.cons_prefix_cons, And.comm]

theorem pyEndsWith_iff {s suffix : String} :
    pyEndsWith s suffix = true ↔ suffix.data <:+ s.data := by
  rw [pyEndsWith, List.isSuffixOf, isPrefixOf_eq_true_iff, List.reverse_prefix]

theorem pyEndsWith_empty_left {suffix : String} (h : suffix ≠ "") :
    pyEndsWith "" suffix = false := by
  rw [Bool.eq_false_iff]
  intro hc
  rw [pyEndsWith_iff] at hc
  rcases hc with ⟨t, ht⟩
  apply h
  cases suffix with
  | mk d =>
    simp only [show ("" : String).data = [] from rfl] at ht
    rcases List.append_eq_nil.mp ht with ⟨-, h2⟩
    simp [h2]

theorem string_append_data (s t : String) : (s ++ t).data = s.data ++ t.data :=
  String.data_append s t

/-- `lookup` on the head of an association list. -/
theorem lookup_cons_self {k : String} {v : MetaRecord} {l : Metadata} :
    ((k, v) :: l).lookup k = some v := by
  simp [List.lookup]

theorem lookup_cons_ne {k a : String} {v : MetaRecord} {l : Metadata}
    (h : a ≠ k) : ((k, v) :: l).lookup a = l.lookup a := by
  simp [List.lookup, beq_eq_false_iff_ne.mpr h]

/-- What `metadata_upsert` does when the key is absent. -/
theorem metadata_upsert_absent {m : Metadata} {url k now : String}
    (h : m.lookup k = none) :
    metadata_upsert m url k now = m ++ [(k, ⟨url, [now]⟩)] := by
  unfold metadata_upsert
  rw [h]
  rfl

/-- `lookup` after `update_history_at`. -/
theorem lookup_update_history_at (m : Metadata) (k now a : String) :
    (update_history_at m k now).lookup a
      = if a = k then
          (m.lookup k).map (fun r => (⟨r.url, r.update_history ++ [now]⟩ : MetaRecord))
        else m.lookup a := by
  induction m with
  | nil => by_cases h : a = k <;> simp [update_history_at, h]
  | cons kv tl ih =>
    rcases kv with ⟨b, r⟩
    rw [update_history_at]
    by_cases hb : b = k
    · subst hb
      rw [if_pos rfl]
      by_cases hab : a = b
      · subst hab
        rw [if_pos rfl, lookup_cons_self, lookup_cons_self]
        rfl
      · rw [lookup_cons_ne hab, if_neg hab, lookup_cons_ne hab]
    · rw [if_neg hb]
      by_cases hab : a = b
      · subst hab
        rw [lookup_cons_self, if_neg hb, lookup_cons_self]
      · rw [lookup_cons_ne hab, ih]
        by_cases hak : a = k
        · rw [if_pos hak, if_pos hak, lookup_cons_ne (fun hc => hb hc.symm)]
        · rw [if_neg hak, if_neg hak, lookup_cons_ne hab]

/-- `update_history_at` preserves the key list. -/
theorem map_fst_update_history_at (m : Metadata) (k now : String) :
    (update_history_at m k now).map Prod.fst = m.map Prod.fst := by
  induction m with
  | nil => rfl
  | cons kv tl ih =>
    rcases kv with ⟨b, r⟩
    rw [update_history_at]
    by_cases hb : b = k
    · rw [if_pos hb]
      simp
    · rw [if_neg hb]
      simp [ih]

/-- What `metadata_upsert` does when the key is present: the same key list,
the record at the key gets the timestamp appended (URL kept), and every
other key's lookup is untouched. -/
theorem metadata_upsert_present (url now : String) {m : Metadata} {k : String}
    {rec : MetaRecord} (h : m.lookup k = some rec) :
    (metadata_upsert m url k now).map Prod.fst = m.map Prod.fst ∧
    (metadata_upsert m url k now).lookup k = some ⟨rec.url, rec.update_history ++ [now]⟩ ∧
    (∀ a, a ≠ k → (metadata_upsert m url k now).lookup a = m.lookup a) := by
  unfold metadata_upsert
  rw [h]
  simp only [Option.isSome_some, if_true]
  refine ⟨map_fst_update_history_at m k now, ?_, ?_⟩
  · rw [lookup_update_history_at, if_pos rfl, h]
    rfl
  · intro a ha
    rw [lookup_update_history_at, if_neg ha]

/-- A `lookup` miss means no entry carries the key. -/
theorem lookup_none_keys {m : Metadata} {k : String} (h : m.lookup k = none) :
    ∀ kv ∈ m, kv.1 ≠ k := by
  induction m with
  | nil => simp
  | cons kv tl ih =>
    rcases kv with ⟨a, r⟩
    intro x hx
    by_cases hak : a = k
    · subst hak
      rw [lookup_cons_self] at h
      exact absurd h (by simp)
    · rcases List.mem_cons.mp hx with h1 | h1
      · subst h1
        exact hak
      · rw [lookup_cons_ne (fun hc => hak hc.symm)] at h
        exact ih h x h1

/-- Appending a fresh entry makes its key found. -/
theorem lookup_append_self {m : Metadata} {k : String} {v : MetaRecord}
    (h : m.lookup k = none) : (m ++ [(k, v)]).lookup k = some v := by
  induction m with
  | nil => exact lookup_cons_self
  | cons kv tl ih =>
    rcases kv with ⟨b, r⟩
    by_cases hb : k = b
    · subst hb
      rw [lookup_cons_self] at h
      cases h
    · rw [lookup_cons_ne hb] at h
      rw [List.cons_append, lookup_cons_ne hb]
      exact ih h

/-- Counting entries with a given key only depends on the key list. -/
theorem countP_key_eq (m : Metadata) (k : String) :
    m.countP (fun kv => kv.1 == k) = (m.map Prod.fst).countP (fun a => a == k) := by
  rw [List.countP_map]
  rfl

/-- No entry carries a missing key. -/
theorem countP_key_zero {m : Metadata} {k : String} (h : m.lookup k = none) :
    m.countP (fun kv => kv.1 == k) = 0 := by
  rw [List.countP_eq_zero]
  intro kv hkv
  simp [lookup_none_keys h kv hkv]




/-! ## Claim theorems -/

/-- C4: metadata record lifecycle.  A `DocumentMetadataRecord` for a
filename is created only on the first successful download of that filename
(as a fresh entry with a one-timestamp history) and never on a failed
attempt (the metadata is untouched); every subsequent successful
re-download of the same filename appends exactly one new timestamp to the
existing record's `update_history` without changing the key list or any
other record, so the history is never rewritten or truncated; and two
successive successful downloads of the same URL to the same filename yield
one record with two timestamps, never two records. -/
theorem metadata_record_lifecycle (fetch : String → Bool) (now now2 : String)
    (m : Metadata) (url save_path : String) :
    (fetch url = false →
      save_file_with_metadata fetch now m url save_path = (false, m)) ∧
    (fetch url = true → m.lookup (basename save_path) = none →
      save_file_with_metadata fetch now m url save_path
        = (true, m ++ [(basename save_path, ⟨url, [now]⟩)])) ∧
    (fetch url = true → ∀ rec, m.lookup (basename save_path) = some rec →
      (save_file_with_metadata fetch now m url save_path).1 = true ∧
      ((save_file_with_metadata fetch now m url save_path).2).lookup (basename save_path)
        = some ⟨rec.url, rec.update_history ++ [now]⟩ ∧
      ((save_file_with_metadata fetch now m url save_path).2).map Prod.fst = m.map Prod.fst ∧
      (∀ a, a ≠ basename save_path →
        ((save_file_with_metadata fetch now m url save_path).2).lookup a = m.lookup a)) ∧
    (fetch url = true → m.lookup (basename save_path) = none →
      ((save_file_with_metadata fetch now2
          (save_file_with_metadata fetch now m url save_path).2 url save_path).2).lookup
            (basename save_path) = some ⟨url, [now, now2]⟩ ∧
      ((save_file_with_metadata fetch now2
          (save_file_with_metadata fetch now m url save_path).2 url save_path).2).countP
            (fun kv => kv.1 == basename save_path) = 1 ∧
      ((save_file_with_metadata fetch now2
          (save_file_with_metadata fetch now m url save_path).2 url save_path).2).length
            = m.length + 1) := by
  refine ⟨?_, ?_, ?_, ?_⟩
  · intro hfail
    rw [save_file_with_metadata, if_neg (by rw [hfail]; simp)]
  · intro hok habs
    rw [save_file_with_metadata, if_pos hok, metadata_upsert_absent habs]
  · intro hok rec hpre
    rw [save_file_with_metadata, if_pos hok]
    rcases metadata_upsert_present url now hpre with ⟨h1, h2, h3⟩
    exact ⟨rfl, h2, h1, h3⟩
  · intro hok habs
    have hinner : save_file_with_metadata fetch now m url save_path
        = (true, m ++ [(basename save_path, (⟨url, [now]⟩ : MetaRecord))]) := by
      rw [save_file_with_metadata, if_pos hok, metadata_upsert_absent habs]
    rw [hinner, save_file_with_metadata, if_pos hok]
    simp only []
    have hl1 : (m ++ [(basename save_path, (⟨url, [now]⟩ : MetaRecord))]).lookup
        (basename save_path) = some ⟨url, [now]⟩ := lookup_append_self habs
    rcases metadata_upsert_present url now2 hl1 with ⟨h1, h2, h3⟩
    refine ⟨h2, ?_, ?_⟩
    · rw [countP_key_eq, h1, ← countP_key_eq, List.countP_append,
        countP_key_zero habs]
      simp
    · have : (metadata_upsert (m ++ [(basename save_path, (⟨url, [now]⟩ : MetaRecord))])
          url (basename save_path) now2).length
          = (m ++ [(basename save_path, (⟨url, [now]⟩ : MetaRecord))]).length := by
        rw [← List.length_map _ Prod.fst, h1, List.length_map]
      rw [this]
      simp

/-- C4 witness: a concrete run of the lifecycle conjuncts — a failed fetch
leaves the store untouched, a first success creates the record, a repeat
success appends the second timestamp to the single record. -/
theorem metadata_record_lifecycle_witness :
    (save_file_with_metadata (fun _ => false) "t1" [] ("http://h/f.pdf") ("documents/f.pdf")
      = (false, [])) ∧
    (save_file_with_metadata (fun _ => true) "t1" [] ("http://h/f.pdf") ("documents/f.pdf")
      = (true, [(basename ("documents/f.pdf"), ⟨"http://h/f.pdf", ["t1"]⟩)])) ∧
    (((save_file_with_metadata (fun _ => true) "t2"
        (save_file_with_metadata (fun _ => true) "t1" [] ("http://h/f.pdf") ("documents/f.pdf")).2
        ("http://h/f.pdf") ("documents/f.pdf")).2).lookup (basename ("documents/f.pdf"))
      = some ⟨"http://h/f.pdf", ["t1", "t2"]⟩) := by
  have h1 := (metadata_record_lifecycle (fun _ => false) "t1" "t2" []
    ("http://h/f.pdf") ("documents/f.pdf")).1 rfl
  have h2 := (metadata_record_lifecycle (fun _ => true) "t1" "t2" []
    ("http://h/f.pdf") ("documents/f.pdf")).2.1 rfl rfl
  have h4 := (metadata_record_lifecycle (fun _ => true) "t1" "t2" []
    ("http://h/f.pdf") ("documents/f.pdf")).2.2.2 rfl rfl
  exact ⟨h1, by rw [h2]; simp, h4.1⟩

/-- C9: quota at zero.  For `max_files = 0` and every input set of file
links, `download_files` submits no download attempt and reports zero
successes (and, as always, returns `None`). -/
theorem download_files_zero_quota (fetch : String → Bool) (file_links : List String) :
    download_files fetch file_links 0 = .ok ⟨none, 0, []⟩ := by
  cases file_links with
  | nil => rfl
  | cons u rest => rfl

/-- C1 counterexample: `download_files` never returns the success count —
the Python function body contains no `return <value>`, so it returns
`None` on every path; on a concrete one-element input with a succeeding
fetch the internal count is `1` while the returned value is `None`. -/
theorem download_files_no_return_value :
    ¬ (∀ (fetch : String → Bool) (file_links : List String) (max_files : Int)
        (r : DownloadResult), file_links ≠ [] →
        download_files fetch file_links max_files = .ok r →
        r.ret = some r.successful_downloads) := by
  intro hcl
  have h := hcl (fun _ => true) ["http://a.com/x.pdf"] 5
    ⟨none, 1, [("http://a.com/x.pdf", "documents/x.pdf")]⟩ (by simp) rfl
  simp at h

/-- The submission loop takes exactly the first `max_files - count` file
links (in iteration order) as the URLs of the submitted attempts. -/
theorem submit_loop_fst (max_files : Int) (s : Nat) :
    ∀ (file_links : List String) (count : Nat) (att : List (String × String)),
      submit_loop file_links count max_files s = .ok att →
      att.map Prod.fst = file_links.take (max_files - (count : Int)).toNat := by
  intro file_links
  induction file_links with
  | nil =>
    intro count att h
    rw [submit_loop] at h
    injection h with h
    subst h
    simp
  | cons url rest ih =>
    intro count att h
    rw [submit_loop] at h
    by_cases hc : (count : Int) ≥ max_files
    · rw [if_pos hc] at h
      injection h with h
      subst h
      have hz : (max_files - (count : Int)).toNat = 0 := by omega
      rw [hz]
      simp
    · rw [if_neg hc] at h
      cases hd : derive_filename url s with
      | error e => rw [hd] at h; cases h
      | ok filename =>
        rw [hd] at h
        cases ht : submit_loop rest (count + 1) max_files s with
        | error e => rw [ht] at h; cases h
        | ok tail =>
          rw [ht] at h
          injection h with h
          subst h
          have htail := ih (count + 1) tail ht
          have hsucc : (max_files - (count : Int)).toNat
              = (max_files - ((count + 1 : Nat) : Int)).toNat + 1 := by
            push_cast
            omega
          rw [hsucc, List.take_succ_cons, List.map_cons, htail]

/-- C1 (amended): `download_files(file_links, max_files)` computes the
success count internally (it is printed, not returned; the function
returns `None`), and that internal count equals the number of fetch
successes among the attempted subset, which is the first
`max_files` file links in iteration order. -/
theorem download_files_counts_successes (fetch : String → Bool)
    (file_links : List String) (max_files : Int) (r : DownloadResult)
    (h : download_files fetch file_links max_files = .ok r) :
    r.ret = none ∧
    r.attempted.map Prod.fst = file_links.take max_files.toNat ∧
    r.successful_downloads = (file_links.take max_files.toNat).countP fetch := by
  cases file_links with
  | nil =>
    rw [download_files] at h
    injection h with h
    subst h
    simp
  | cons u rest =>
    rw [download_files] at h
    cases hs : submit_loop (u :: rest) 0 max_files 0 with
    | error e => rw [hs] at h; cases h
    | ok att =>
      rw [hs] at h
      injection h with h
      subst h
      have hfst := submit_loop_fst max_files 0 (u :: rest) 0 att hs
      have : (max_files - ((0 : Nat) : Int)).toNat = max_files.toNat := by omega
      rw [this] at hfst
      refine ⟨rfl, hfst, ?_⟩
      rw [← hfst, List.countP_map]
      rfl

/-- C1 amended witness: the concrete one-element run — the returned value
is `None`, the attempted list is the single link, and the count is `1`. -/
theorem download_files_counts_successes_witness :
    download_files (fun _ => true) ["http://a.com/x.pdf"] 5
      = .ok ⟨none, 1, [("http://a.com/x.pdf", "documents/x.pdf")]⟩ ∧
    ((⟨none, 1, [("http://a.com/x.pdf", "documents/x.pdf")]⟩ : DownloadResult).ret = none ∧
     (⟨none, 1, [("http://a.com/x.pdf", "documents/x.pdf")]⟩ : DownloadResult).attempted.map Prod.fst
       = (["http://a.com/x.pdf"] : List String).take ((5 : Int)).toNat ∧
     (⟨none, 1, [("http://a.com/x.pdf", "documents/x.pdf")]⟩ : DownloadResult).successful_downloads
       = ((["http://a.com/x.pdf"] : List String).take ((5 : Int)).toNat).countP (fun _ => true)) :=
  ⟨rfl, download_files_counts_successes (fun _ => true) ["http://a.com/x.pdf"] 5
    ⟨none, 1, [("http://a.com/x.pdf", "documents/x.pdf")]⟩ rfl⟩

/-- C8: two concurrent metadata upserts to the same filename are NOT
protected by any lock — each worker's `save_file_with_metadata` does a bare
`load_metadata()` → mutate → `save_metadata()`.  Under the interleaving
load-A, load-B, store-A, store-B (both snapshots taken before either
store), worker B's persist overwrites worker A's: the final store holds a
single record whose history contains only B's timestamp, so A's update is
lost — contradicting the claim that both timestamps always end up in the
record's `update_history`. -/
theorem concurrent_upsert_lost_update :
    (run_upserts ⟨"http://h/f.pdf", "documents/f.pdf", "t1"⟩
        ⟨"http://h/f.pdf", "documents/f.pdf", "t2"⟩
        [.loadA, .loadB, .storeA, .storeB] []).store
      = [("f.pdf", ⟨"http://h/f.pdf", ["t2"]⟩)] ∧
    ("t1" ∈ (⟨"http://h/f.pdf", ["t2"]⟩ : MetaRecord).update_history → False) ∧
    (run_upserts ⟨"http://h/f.pdf", "documents/f.pdf", "t1"⟩
        ⟨"http://h/f.pdf", "documents/f.pdf", "t2"⟩
        [.loadA, .storeA, .loadB, .storeB] []).store
      = [("f.pdf", ⟨"http://h/f.pdf", ["t1", "t2"]⟩)] := by
  refine ⟨rfl, ?_, rfl⟩
  intro hmem
  simp at hmem

/-- C5: classifier precedence.  A URL ending in an allow-listed extension
classifies as `File` regardless of whether it string-prefixes the base URL;
a URL ending in a known excluded extension that is not allow-listed
classifies as `Ignored` even when it string-prefixes the base URL, so it
never becomes a `Page`. -/
theorem classify_precedence (extensions : List String) (base_url url : String) :
    (∀ ext, ext ∈ extensions → pyEndsWith (pyLower url) ext = true →
      classify extensions base_url url = .File) ∧
    (is_excluded_file url = true → is_valid_file_extension url extensions = false →
      pyStartsWith url base_url = true →
      classify extensions base_url url = .Ignored) := by
  constructor
  · intro ext hmem hend
    have hv : is_valid_file_extension url extensions = true := by
      rw [is_valid_file_extension, List.any_eq_true]
      exact ⟨ext, hmem, hend⟩
    rw [classify, if_neg (fun hc => by rw [hv] at hc; cases hc.2), if_pos hv]
  · intro he hv _
    rw [classify, if_pos ⟨he, hv⟩]

/-- C5 witness: a cross-domain `.pdf` URL (which does not prefix the base)
is a `File`; a same-site `.png` URL (which does prefix the base) is
`Ignored`. -/
theorem classify_precedence_witness :
    (".pdf" ∈ ([".pdf"] : List String) ∧
     pyEndsWith (pyLower ("https://other.org/d.pdf")) ".pdf" = true ∧
     pyStartsWith ("https://other.org/d.pdf") ("https://ex.com") = false ∧
     classify [".pdf"] ("https://ex.com") ("https://other.org/d.pdf") = .File) ∧
    (is_excluded_file ("https://ex.com/i.png") = true ∧
     is_valid_file_extension ("https://ex.com/i.png") [".pdf"] = false ∧
     pyStartsWith ("https://ex.com/i.png") ("https://ex.com") = true ∧
     classify [".pdf"] ("https://ex.com") ("https://ex.com/i.png") = .Ignored) := by
  refine ⟨⟨by simp, rfl, rfl, ?_⟩, rfl, rfl, rfl, ?_⟩
  · exact (classify_precedence [".pdf"] ("https://ex.com")
      ("https://other.org/d.pdf")).1 ".pdf" (by simp) rfl
  · exact (classify_precedence [".pdf"] ("https://ex.com")
      ("https://ex.com/i.png")).2 rfl rfl rfl

/-- C6 counterexample: the claim fails when the base URL itself has no
parseable network location.  `"notaurl"` and `"alsonotaurl"` both parse
with an empty netloc, the equality check `'' == ''` succeeds, and
`is_same_domain` returns `True` — not `False` — for a malformed candidate
URL. -/
theorem is_same_domain_malformed_true :
    urlparse ("alsonotaurl") = .ok ⟨"", "", "alsonotaurl", "", "", ""⟩ ∧
    is_same_domain ("notaurl") ("alsonotaurl") = .ok true :=
  ⟨rfl, rfl⟩

/-- C6 (amended): a malformed candidate URL — one `urlparse` accepts but
that yields an empty network-location — is treated as out-of-scope
(`is_same_domain` returns `False`, raising no error), provided the base URL
parses to a non-empty netloc that does not end in a dot.  When the base URL
also has an empty netloc the two empty netlocs compare equal and the
function returns `True`; a candidate with unbalanced IPv6 brackets makes
`urlparse` raise `ValueError` instead of returning. -/
theorem is_same_domain_malformed_out_of_scope (base_url url : String)
    (pb pc : ParseResult)
    (hb : urlparse base_url = .ok pb)
    (hbne : pb.netloc ≠ "")
    (hbdot : pyEndsWith pb.netloc "." = false)
    (hc : urlparse url = .ok pc)
    (hcemp : pc.netloc = "") :
    is_same_domain base_url url = .ok false := by
  rw [is_same_domain, hb, hc]
  simp only []
  rw [hcemp]
  have h1 : (pb.netloc == "") = false := beq_eq_false_iff_ne.mpr hbne
  have h2 : pyEndsWith "" ("." ++ pb.netloc) = false := by
    apply pyEndsWith_empty_left
    intro hcontra
    have := congrArg String.data hcontra
    rw [string_append_data] at this
    simp at this
  have h3 : pyEndsWith pb.netloc ("." ++ "") = false := by
    rw [show ("." ++ "" : String) = "." from rfl]
    exact hbdot
  rw [h1, h2, h3]
  rfl

/-- C6 amended witness: base `https://example.com` rejects the malformed
candidate `garbage` with `False` and no error. -/
theorem is_same_domain_malformed_out_of_scope_witness :
    is_same_domain ("https://example.com") ("garbage") = .ok false :=
  is_same_domain_malformed_out_of_scope ("https://example.com") ("garbage")
    ⟨"https", "example.com", "", "", "", ""⟩ ⟨"", "", "garbage", "", "", ""⟩
    rfl (by decide) rfl rfl rfl

/-- If a path does not end in `"//"` then after dropping one trailing
slash it no longer ends in `"/"`. -/
theorem not_slash_suffix_dropLast {pa : String}
    (h : pyEndsWith pa "//" = false) (hc : pyEndsWith pa "/" = true) :
    pyEndsWith (dropLastStr pa) "/" = false := by
  rw [Bool.eq_false_iff]
  intro h2
  rw [pyEndsWith_iff] at hc h2
  rcases hc with ⟨t, ht⟩
  rcases h2 with ⟨u, hu⟩
  rw [Bool.eq_false_iff] at h
  apply h
  rw [pyEndsWith_iff]
  have hd : pa.data.dropLast = t := by
    rw [← ht]
    exact List.dropLast_concat
  have hu2 : u ++ ['/'] = t := by
    rw [← hd]
    exact hu
  refine ⟨u, ?_⟩
  rw [← ht, ← hu2]
  simp

/-- Normal form of `clean_parsed` on an explicit six-tuple. -/
theorem clean_parsed_eq (sc nl pa pr q f : String) :
    clean_parsed ⟨sc, nl, pa, pr, q, f⟩
      = if pyEndsWith pa "/" = true ∧ pa.length > 1 then
          ⟨sc, nl, dropLastStr pa, pr, q, ""⟩
        else ⟨sc, nl, pa, pr, q, ""⟩ := by
  rw [clean_parsed]

/-- The component-level cleaning is idempotent whenever the path does not
end in a double slash. -/
theorem clean_parsed_idem {p : ParseResult}
    (h : pyEndsWith p.path "//" = false) :
    clean_parsed (clean_parsed p) = clean_parsed p := by
  rcases p with ⟨sc, nl, pa, pr, q, f⟩
  simp only at h
  rw [clean_parsed_eq sc nl pa pr q f]
  by_cases hc : pyEndsWith pa "/" = true ∧ pa.length > 1
  · rw [if_pos hc, clean_parsed_eq sc nl (dropLastStr pa) pr q "", if_neg]
    intro hcc
    rw [not_slash_suffix_dropLast h hc.1] at hcc
    cases hcc.1
  · rw [if_neg hc, clean_parsed_eq sc nl pa pr q "", if_neg hc]

/-- Cleaning ignores the fragment: two parses differing only in the
fragment clean to the same URL string. -/
theorem clean_parsed_fragment_insensitive (p : ParseResult) (frag : String) :
    urlunparse (clean_parsed { p with fragment := frag })
      = urlunparse (clean_parsed p) := by
  rcases p with ⟨sc, nl, pa, pr, q, f⟩
  rw [show ({ (⟨sc, nl, pa, pr, q, f⟩ : ParseResult) with fragment := frag } : ParseResult)
      = ⟨sc, nl, pa, pr, q, frag⟩ from rfl]
  rw [clean_parsed_eq sc nl pa pr q frag, clean_parsed_eq sc nl pa pr q f]

/-- Cleaning collapses one added trailing slash: when the path is
non-empty and has no trailing slash, the slash-extended parse cleans to
the same URL string. -/
theorem clean_parsed_slash_insensitive (p : ParseResult)
    (h1 : pyEndsWith p.path "/" = false) (h2 : p.path ≠ "") :
    urlunparse (clean_parsed { p with path := p.path ++ "/" })
      = urlunparse (clean_parsed p) := by
  rcases p with ⟨sc, nl, pa, pr, q, f⟩
  simp only at h1 h2
  rw [show ({ (⟨sc, nl, pa, pr, q, f⟩ : ParseResult) with path := pa ++ "/" } : ParseResult)
      = ⟨sc, nl, pa ++ "/", pr, q, f⟩ from rfl]
  rw [clean_parsed_eq sc nl (pa ++ "/") pr q f, clean_parsed_eq sc nl pa pr q f]
  have hpos : pyEndsWith (pa ++ "/") "/" = true := by
    rw [pyEndsWith_iff, string_append_data]
    exact ⟨pa.data, rfl⟩
  have hlen : (pa ++ "/").length > 1 := by
    rw [String.length_append, show ("/" : String).length = 1 from rfl]
    have h4 : pa.length ≥ 1 := by
      rcases pa with ⟨d⟩
      cases d with
      | nil => exact absurd rfl h2
      | cons c tl => simp [String.length]
    omega
  rw [if_pos ⟨hpos, hlen⟩, if_neg (fun hc => by rw [h1] at hc; cases hc.1)]
  have hdrop : dropLastStr (pa ++ "/") = pa := by
    rw [dropLastStr, string_append_data]
    rw [show ("/" : String).data = ['/'] from rfl, List.dropLast_concat]
  rw [hdrop]

/-- C2 counterexample: `clean_url` is not idempotent.  On
`https://a.com/x//` one pass strips only one of the two trailing slashes,
so a second pass produces a different string. -/
theorem clean_url_not_idempotent :
    clean_url ("https://a.com/x//") = .ok ("https://a.com/x/") ∧
    clean_url ("https://a.com/x/") = .ok ("https://a.com/x") ∧
    ("https://a.com/x/" : String) ≠ ("https://a.com/x" : String) :=
  ⟨rfl, rfl, by decide⟩

/-- C2 (amended): `clean_url` removes the fragment unconditionally and one
trailing slash from the path (unless the path is a bare `/`); it is the
unparse of the component-level cleaning of the parse, and that cleaning is
idempotent for every parse whose path does not end in `"//"`.  Two URLs
whose parses differ only by fragment — or only by one trailing slash after
a non-empty path with no trailing slash — canonicalize to the same
string. -/
theorem clean_url_canonicalization (p : ParseResult) (frag u : String) :
    (urlparse u = .ok p → clean_url u = .ok (urlunparse (clean_parsed p))) ∧
    (pyEndsWith p.path "//" = false →
      clean_parsed (clean_parsed p) = clean_parsed p) ∧
    (urlunparse (clean_parsed { p with fragment := frag })
      = urlunparse (clean_parsed p)) ∧
    (pyEndsWith p.path "/" = false → p.path ≠ "" →
      urlunparse (clean_parsed { p with path := p.path ++ "/" })
        = urlunparse (clean_parsed p)) := by
  refine ⟨?_, clean_parsed_idem, clean_parsed_fragment_insensitive p frag,
    clean_parsed_slash_insensitive p⟩
  intro hu
  rw [clean_url, hu]

/-- C2 amended witness: the conjuncts at the concrete parse of
`https://a.com/x#f` — cleaning twice equals cleaning once, and the
fragment and trailing-slash variants produce the canonical
`https://a.com/x`. -/
theorem clean_url_canonicalization_witness :
    (clean_url ("https://a.com/x#f")
      = .ok (urlunparse (clean_parsed ⟨"https", "a.com", "/x", "", "", "f"⟩))) ∧
    (clean_parsed (clean_parsed ⟨"https", "a.com", "/x", "", "", "f"⟩)
      = clean_parsed ⟨"https", "a.com", "/x", "", "", "f"⟩) ∧
    (urlunparse (clean_parsed
        ({ (⟨"https", "a.com", "/x", "", "", "f"⟩ : ParseResult) with fragment := "g" }))
      = urlunparse (clean_parsed ⟨"https", "a.com", "/x", "", "", "f"⟩)) ∧
    (urlunparse (clean_parsed
        ({ (⟨"https", "a.com", "/x", "", "", "f"⟩ : ParseResult) with
            path := ("/x" : String) ++ "/" }))
      = urlunparse (clean_parsed ⟨"https", "a.com", "/x", "", "", "f"⟩)) ∧
    urlunparse (clean_parsed ⟨"https", "a.com", "/x", "", "", "f"⟩)
      = "https://a.com/x" := by
  have h := clean_url_canonicalization ⟨"https", "a.com", "/x", "", "", "f"⟩
    "g" ("https://a.com/x#f")
  exact ⟨h.1 rfl, h.2.1 rfl, h.2.2.1, h.2.2.2 rfl (by decide), rfl⟩

/-- The enqueue loop only adds links not yet visited, so it preserves
distinctness of the visited set. -/
theorem enqueue_links_nodup :
    ∀ (page_links queue visited : List String), visited.Nodup →
      ∀ q' v', enqueue_links page_links queue visited = .ok (q', v') →
        v'.Nodup := by
  intro page_links
  induction page_links with
  | nil =>
    intro q v hn q' v' h
    rw [enqueue_links] at h
    injection h with h
    cases h
    exact hn
  | cons pl tl ih =>
    intro q v hn q' v' h
    rw [enqueue_links] at h
    cases hc : clean_url pl with
    | error e => rw [hc] at h; cases h
    | ok cl =>
      rw [hc] at h
      simp only [] at h
      by_cases hm : cl ∉ v ∧ is_excluded_file cl = false
      · rw [if_pos hm] at h
        refine ih _ _ ?_ _ _ h
        rw [List.nodup_append]
        exact ⟨hn, List.nodup_singleton cl,
          fun a ha hb => hm.1 ((List.mem_singleton.mp hb) ▸ ha)⟩
      · rw [if_neg hm] at h
        exact ih _ _ hn _ _ h

/-- Invariant of the BFS loop: starting from a duplicate-free visited set
and a page count within quota, any successful run ends with a
duplicate-free visited set and a page count within quota. -/
theorem bfs_loop_inv (render : String → Option (List String)) (base_url : String)
    (extensions : List String) (max_pages max_files : Int) :
    ∀ (b : Nat) (queue visited file_links : List String) (pages_scraped : Nat),
      (max_pages - (pages_scraped : Int)).toNat ≤ b →
      visited.Nodup → (pages_scraped : Int) ≤ max_pages →
      ∀ r, bfs_loop render base_url extensions max_pages max_files
          queue visited file_links pages_scraped = .ok r →
        r.visited.Nodup ∧ (r.pages_scraped : Int) ≤ max_pages := by
  intro b
  induction b with
  | zero =>
    intro queue visited fl pages hb hn hp r h
    cases queue with
    | nil =>
      rw [bfs_loop] at h
      injection h with h
      subst h
      exact ⟨hn, hp⟩
    | cons cur rest =>
      rw [bfs_loop] at h
      rw [dif_neg (by intro hcond; have := hcond.1; omega)] at h
      injection h with h
      subst h
      exact ⟨hn, hp⟩
  | succ b ihb =>
    intro queue
    induction queue with
    | nil =>
      intro visited fl pages hb hn hp r h
      rw [bfs_loop] at h
      injection h with h
      subst h
      exact ⟨hn, hp⟩
    | cons cur rest ihq =>
      intro visited fl pages hb hn hp r h
      rw [bfs_loop] at h
      by_cases hcond : (pages : Int) < max_pages ∧ ((fl.length : Int)) < max_files
      · rw [dif_pos hcond] at h
        by_cases hex : is_excluded_file cur = true
        · rw [if_pos hex] at h
          exact ihq visited fl pages hb hn hp r h
        · rw [if_neg hex] at h
          by_cases hbreak :
              ((((scrape_page_for_links_and_files render cur base_url extensions
                visited fl).1.foldl insertUniq fl).length : Int)) ≥ max_files
          · rw [if_pos hbreak] at h
            injection h with h
            subst h
            exact ⟨hn, hp⟩
          · rw [if_neg hbreak] at h
            cases henq : enqueue_links
                (scrape_page_for_links_and_files render cur base_url extensions
                  visited fl).2 rest visited with
            | error e => rw [henq] at h; cases h
            | ok qv =>
              rw [henq] at h
              refine ihb qv.1 qv.2 _ (pages + 1) ?_ ?_ ?_ r h
              · have h1 := hcond.1
                push_cast
                omega
              · rcases qv with ⟨q', v'⟩
                exact enqueue_links_nodup _ rest visited hn q' v' henq
              · have h1 := hcond.1
                push_cast
                omega
      · rw [dif_neg hcond] at h
        injection h with h
        subst h
        exact ⟨hn, hp⟩

/-- C3: visited-once invariant.  For any completed crawl run (each frontier
entry is dequeued at most once by the loop structure), the final
`visited_pages` set has no duplicate entries — every enqueue is guarded by
a membership test — and the final `pages_scraped` is at most `max_pages`
(for a non-negative page quota). -/
theorem bfs_visited_once (render : String → Option (List String))
    (start_url : String) (extensions : List String) (max_pages max_files : Int)
    (hmp : 0 ≤ max_pages) (r : CrawlResult)
    (h : bfs_crawl render start_url extensions max_pages max_files = .ok r) :
    r.visited.Nodup ∧ (r.pages_scraped : Int) ≤ max_pages := by
  rw [bfs_crawl] at h
  cases hpu : urlparse start_url with
  | error e => rw [hpu] at h; cases h
  | ok p =>
    rw [hpu] at h
    cases hcu : clean_url start_url with
    | error e => rw [hcu] at h; cases h
    | ok c =>
      rw [hcu] at h
      exact bfs_loop_inv render _ extensions max_pages max_files
        max_pages.toNat [start_url] [c] [] 0 (by omega)
        (List.nodup_singleton c) hmp r h

/-- C3 witness: a concrete completed run (page quota `0`, renderer
returning no links) with a duplicate-free visited set and
`pages_scraped <= max_pages`. -/
theorem bfs_visited_once_witness :
    bfs_crawl (fun _ => some []) ("https://ex.com") [".pdf"] 0 5
      = .ok ⟨[], 0, ["https://ex.com"]⟩ ∧
    (⟨[], 0, ["https://ex.com"]⟩ : CrawlResult).visited.Nodup ∧
    (((⟨[], 0, ["https://ex.com"]⟩ : CrawlResult).pages_scraped : Int)) ≤ 0 := by
  have he : bfs_crawl (fun _ => some []) ("https://ex.com") [".pdf"] 0 5
      = .ok ⟨[], 0, ["https://ex.com"]⟩ := by
    have h1 : bfs_crawl (fun _ => some []) ("https://ex.com") [".pdf"] 0 5
        = bfs_loop (fun _ => some []) ("https://ex.com") [".pdf"] 0 5
          [("https://ex.com")] [("https://ex.com")] [] 0 := rfl
    rw [h1, bfs_loop]
    norm_num
  have h := bfs_visited_once (fun _ => some []) ("https://ex.com") [".pdf"] 0 5
    (by omega) ⟨[], 0, ["https://ex.com"]⟩ he
  exact ⟨he, h.1, h.2⟩

/-- C7: renderer failure is non-fatal.  A page whose rendering fails
(timeout or navigation error, modelled by the oracle returning `none`)
contributes zero links — the scrape returns empty file and page sets — and
one loop iteration on such a page simply moves on to the next frontier
entry with the page counted, aborting nothing. -/
theorem render_failure_nonfatal (render : String → Option (List String))
    (base_url : String) (extensions : List String) (max_pages max_files : Int)
    (current_url : String) (rest visited file_links : List String)
    (pages_scraped : Nat)
    (hfail : render current_url = none)
    (hexc : is_excluded_file current_url = false)
    (hp : (pages_scraped : Int) < max_pages)
    (hf : ((file_links.length : Int)) < max_files) :
    scrape_page_for_links_and_files render current_url base_url extensions
      visited file_links = ([], []) ∧
    bfs_loop render base_url extensions max_pages max_files
        (current_url :: rest) visited file_links pages_scraped
      = bfs_loop render base_url extensions max_pages max_files
        rest visited file_links (pages_scraped + 1) := by
  have hscr : scrape_page_for_links_and_files render current_url base_url
      extensions visited file_links = ([], []) := by
    rw [scrape_page_for_links_and_files, hfail]
  refine ⟨hscr, ?_⟩
  conv_lhs => rw [bfs_loop]
  rw [dif_pos ⟨hp, hf⟩, if_neg (fun hc => by rw [hexc] at hc; cases hc), hscr]
  simp only [List.foldl_nil]
  rw [if_neg (by omega), enqueue_links]

/-- C7 witness: one failing render on a fresh loop state steps to the next
frontier entry. -/
theorem render_failure_nonfatal_witness :
    scrape_page_for_links_and_files (fun _ => none) ("https://ex.com/a")
      ("https://ex.com") [".pdf"] [] [] = ([], []) ∧
    bfs_loop (fun _ => none) ("https://ex.com") [".pdf"] 5 5
        [("https://ex.com/a")] [] [] 0
      = bfs_loop (fun _ => none) ("https://ex.com") [".pdf"] 5 5 [] [] [] 1 :=
  render_failure_nonfatal (fun _ => none) ("https://ex.com") [".pdf"] 5 5
    ("https://ex.com/a") [] [] [] 0 rfl rfl (by norm_num) (by norm_num)

/-- C10: with a non-positive file quota the crawl renders nothing.  The
loop guard demands `len(file_links) < max_files` before any page is
processed, which already fails at `0`, so the run returns
`pages_scraped = 0` with an empty file set — independently of the
renderer (not even the seed page is rendered). -/
theorem bfs_zero_file_quota (render render' : String → Option (List String))
    (start_url : String) (extensions : List String) (max_pages max_files : Int)
    (hmf : max_files ≤ 0) (r : CrawlResult)
    (h : bfs_crawl render start_url extensions max_pages max_files = .ok r) :
    r.pages_scraped = 0 ∧ r.file_links = [] ∧
    bfs_crawl render start_url extensions max_pages max_files
      = bfs_crawl render' start_url extensions max_pages max_files := by
  cases hpu : urlparse start_url with
  | error e =>
    rw [bfs_crawl, hpu] at h
    cases h
  | ok p =>
    cases hcu : clean_url start_url with
    | error e =>
      rw [bfs_crawl, hpu, hcu] at h
      cases h
    | ok c =>
      rw [bfs_crawl, hpu, hcu] at h
      simp only [] at h
      rw [bfs_loop] at h
      rw [dif_neg (by intro hc; have h2 := hc.2; simp at h2; omega)] at h
      injection h with h
      subst h
      refine ⟨rfl, rfl, ?_⟩
      rw [bfs_crawl, bfs_crawl, hpu, hcu]
      simp only []
      rw [bfs_loop]
      conv_rhs => rw [bfs_loop]
      rw [dif_neg (by intro hc; have h2 := hc.2; simp at h2; omega),
        dif_neg (by intro hc; have h2 := hc.2; simp at h2; omega)]

/-- C10 witness: the concrete run with `max_files = 0` — zero pages, no
files, and the renderer is irrelevant. -/
theorem bfs_zero_file_quota_witness :
    bfs_crawl (fun _ => some []) ("https://ex.com") [".pdf"] 5 0
      = .ok ⟨[], 0, ["https://ex.com"]⟩ ∧
    (⟨[], 0, ["https://ex.com"]⟩ : CrawlResult).pages_scraped = 0 ∧
    (⟨[], 0, ["https://ex.com"]⟩ : CrawlResult).file_links = [] ∧
    bfs_crawl (fun _ => some []) ("https://ex.com") [".pdf"] 5 0
      = bfs_crawl (fun _ => none) ("https://ex.com") [".pdf"] 5 0 := by
  have he : bfs_crawl (fun _ => some []) ("https://ex.com") [".pdf"] 5 0
      = .ok ⟨[], 0, ["https://ex.com"]⟩ := by
    have h1 : bfs_crawl (fun _ => some []) ("https://ex.com") [".pdf"] 5 0
        = bfs_loop (fun _ => some []) ("https://ex.com") [".pdf"] 5 0
          [("https://ex.com")] [("https://ex.com")] [] 0 := rfl
    rw [h1, bfs_loop]
    norm_num
  have h := bfs_zero_file_quota (fun _ => some []) (fun _ => none)
    ("https://ex.com") [".pdf"] 5 0 (by omega) ⟨[], 0, ["https://ex.com"]⟩ he
  exact ⟨he, h.1, h.2.1, h.2.2⟩
